import Mathlib

/-!
Shallow embedding of `src/magic_square.py`.

The program encodes the "complete an associative magic square" puzzle as
integer-arithmetic constraints, hands them to the Z3 solver, and decodes a
model (if any) into an `n × n` grid of integers.  We embed the constraint
set that `complete_magic_square` builds as an executable Boolean predicate
`satisfies` over an assignment of integers to the cell variables, and model
the external solver by its documented contract: `check()` answers `sat`
exactly when some assignment satisfies every asserted constraint, and the
returned grid is read off such an assignment.  The module-level `solver`
accumulates assertions across calls; `ReturnsSeq` carries the list of
earlier calls whose assertions are still in the solver when a new call runs.
-/

/-- Python list indexing `g[i][j]` on a row-major list-of-lists grid.  Every
access the program performs is in range for a well-formed `n × n` grid, so
the `getD` defaults are never consulted there. -/
def cellAt (g : List (List Int)) (i j : Nat) : Int :=
  (g.getD i []).getD j 0

/-- `Sum(square[i])`: the sum of row `i` of the assignment `f`. -/
def rowSum (n : Nat) (f : Nat → Nat → Int) (i : Nat) : Int :=
  ((List.range n).map fun j => f i j).sum

/-- `Sum([square[j][i] for j in range(grid_size)])`: the sum of column `i`. -/
def colSum (n : Nat) (f : Nat → Nat → Int) (i : Nat) : Int :=
  ((List.range n).map fun j => f j i).sum

/-- Line 26: `magic_constant = Sum(square[0])`, the sum of row 0. -/
def magic_constant (n : Nat) (f : Nat → Nat → Int) : Int :=
  rowSum n f 0

/-- `Sum([square[i][i] for i in range(grid_size)])`: the main diagonal. -/
def diagSum (n : Nat) (f : Nat → Nat → Int) : Int :=
  ((List.range n).map fun i => f i i).sum

/-- `Sum([square[grid_size-i-1][i] for i in range(grid_size)])`: the
anti-diagonal. -/
def antiDiagSum (n : Nat) (f : Nat → Nat → Int) : Int :=
  ((List.range n).map fun i => f (n - i - 1) i).sum

/-- Lines 22-23 (`constraints` in the source): every cell lies in
`[1, grid_size**2]`. -/
def constraints (n : Nat) (f : Nat → Nat → Int) : Bool :=
  (List.range n).all fun i => (List.range n).all fun j =>
    decide (1 ≤ f i j) && decide (f i j ≤ (n : Int) ^ 2)

/-- Lines 29-31: every row sums to the magic constant. -/
def row_constraints (n : Nat) (f : Nat → Nat → Int) : Bool :=
  (List.range n).all fun i => rowSum n f i == magic_constant n f

/-- Lines 34-36: every column sums to the magic constant. -/
def column_constraints (n : Nat) (f : Nat → Nat → Int) : Bool :=
  (List.range n).all fun i => colSum n f i == magic_constant n f

/-- Lines 39-42: both main diagonals sum to the magic constant. -/
def diagonal_constraints (n : Nat) (f : Nat → Nat → Int) : Bool :=
  (diagSum n f == magic_constant n f) && (antiDiagSum n f == magic_constant n f)

/-- Line 46: `square[0][i] + square[grid_size-1][grid_size-i-1] ==
associative_sum` for `i in range(grid_size)`. -/
def associative_row_constraints (n : Nat) (f : Nat → Nat → Int) (asum : Int) : Bool :=
  (List.range n).all fun i => f 0 i + f (n - 1) (n - i - 1) == asum

/-- The index list of Python `range(1, grid_size - 1)` from line 47. -/
def assocColIndices (n : Nat) : List Nat :=
  List.range' 1 (n - 1 - 1)

/-- Line 47: `square[i][0] + square[grid_size-i-1][grid_size-1] ==
associative_sum` for `i in range(1, grid_size-1)`. -/
def associative_column_constraints (n : Nat) (f : Nat → Nat → Int) (asum : Int) : Bool :=
  (assocColIndices n).all fun i => f i 0 + f (n - i - 1) (n - 1) == asum

/-- Lines 60-63: `If(incomplete_square[i][j] != 0, square[i][j] ==
incomplete_square[i][j], True)` for every position. -/
def incomplete_square_constraints (n : Nat) (input : List (List Int))
    (f : Nat → Nat → Int) : Bool :=
  (List.range n).all fun i => (List.range n).all fun j =>
    if cellAt input i j ≠ 0 then f i j == cellAt input i j else true

/-- The conjunction of every constraint one call of `complete_magic_square`
adds to the solver (lines 50-57 and 65), evaluated at an assignment `f` of
the shared `cell_i_j` variables and `asum` for `associative_sum`. -/
def satisfies (n : Nat) (input : List (List Int)) (f : Nat → Nat → Int)
    (asum : Int) : Bool :=
  constraints n f && row_constraints n f && column_constraints n f &&
    diagonal_constraints n f && associative_row_constraints n f asum &&
    associative_column_constraints n f asum &&
    incomplete_square_constraints n input f

/-- Line 71: the grid read back from a model, `[[model.evaluate(square[i][j])
for j in range(grid_size)] for i in range(grid_size)]`. -/
def extractSolution (n : Nat) (f : Nat → Nat → Int) : List (List Int) :=
  (List.range n).map fun i => (List.range n).map fun j => f i j

/-- The solver's assertion store after a sequence of calls is the union of
each call's constraint set; the `cell_i_j` and `associative_sum` symbols are
shared across calls, so one assignment must satisfy every call's
constraints at once.  `SatSeq calls` is Z3's `sat` verdict for that store,
per the solver's contract (the spec treats the solver as complete for this
fragment, so the verdict coincides with satisfiability). -/
def SatSeq (calls : List (Nat × List (List Int))) : Prop :=
  ∃ f asum, ∀ c ∈ calls, satisfies c.1 c.2 f asum = true

/-- Input/output relation of `complete_magic_square` when the module-level
solver already holds the assertions of the calls in `prev`: the call returns
`none` exactly when the accumulated store is unsatisfiable, and otherwise
returns the grid extracted from a model of the whole store. -/
def ReturnsSeq (prev : List (Nat × List (List Int))) (n : Nat)
    (input : List (List Int)) (r : Option (List (List Int))) : Prop :=
  match r with
  | none => ¬ SatSeq (prev ++ [(n, input)])
  | some sol => ∃ f asum,
      (∀ c ∈ prev ++ [(n, input)], satisfies c.1 c.2 f asum = true) ∧
      sol = extractSolution n f

/-- Input/output relation of `complete_magic_square` on a fresh solver (the
state of the module's single solver at its first call). -/
def Returns (n : Nat) (input : List (List Int)) (r : Option (List (List Int))) : Prop :=
  ReturnsSeq [] n input r

/-- Line 99: the message printed when `complete_magic_square` yields no grid. -/
def noSolutionMessage (n : Nat) : String :=
  "No solution found for " ++ toString n ++ "x" ++ toString n ++ " Magic Square."

/-- Lines 94-99: the visualisation step.  Python `if magic_square_solution:`
treats both `None` and an empty list as falsy. -/
def report (n : Nat) (r : Option (List (List Int))) : List String :=
  match r with
  | some sol =>
      if sol.isEmpty then [noSolutionMessage n]
      else ("Magic Square (" ++ toString n ++ "x" ++ toString n ++ "):")
        :: sol.map toString
  | none => [noSolutionMessage n]

/-- Line 82: the hard-coded grid size of the reference invocation. -/
def grid_size : Nat := 4

/-- Lines 83-88: the hard-coded input grid of the reference invocation. -/
def incomplete_square : List (List Int) :=
  [[0, 0, 1, 0], [0, 5, 0, 0], [0, 0, 0, 0], [0, 0, 0, 6]]

/-- The solution recorded in the source's own output transcript
(lines 183-186 of the file's trailing comment). -/
def recordedSolution : List (List Int) :=
  [[5, 6, 1, 10], [6, 5, 10, 1], [10, 1, 6, 5], [1, 10, 5, 6]]

theorem cellAt_extractSolution (n : Nat) (f : Nat → Nat → Int) {i j : Nat}
    (hi : i < n) (hj : j < n) :
    cellAt (extractSolution n f) i j = f i j := by
  have h1 : (extractSolution n f).getD i [] = (List.range n).map fun j => f i j := by
    unfold extractSolution
    rw [List.getD_eq_getElem _ _ (by simpa using hi), List.getElem_map, List.getElem_range]
  unfold cellAt
  rw [h1, List.getD_eq_getElem _ _ (by simpa using hj), List.getElem_map, List.getElem_range]

theorem returns_some_iff {n : Nat} {input sol : List (List Int)} :
    Returns n input (some sol) ↔
      ∃ f asum, satisfies n input f asum = true ∧ sol = extractSolution n f := by
  simp [Returns, ReturnsSeq]

theorem returns_none_iff {n : Nat} {input : List (List Int)} :
    Returns n input none ↔ ¬ ∃ f asum, satisfies n input f asum = true := by
  simp [Returns, ReturnsSeq, SatSeq]

/-- Unpacking of `satisfies` into the individual constraint families. -/
theorem satisfies_spec {n : Nat} {input : List (List Int)} {f : Nat → Nat → Int}
    {asum : Int} (h : satisfies n input f asum = true) :
    (∀ i < n, ∀ j < n, 1 ≤ f i j ∧ f i j ≤ (n : Int) ^ 2) ∧
    (∀ i < n, rowSum n f i = magic_constant n f) ∧
    (∀ i < n, colSum n f i = magic_constant n f) ∧
    diagSum n f = magic_constant n f ∧
    antiDiagSum n f = magic_constant n f ∧
    (∀ i < n, f 0 i + f (n - 1) (n - i - 1) = asum) ∧
    (∀ i ∈ assocColIndices n, f i 0 + f (n - i - 1) (n - 1) = asum) ∧
    (∀ i < n, ∀ j < n, cellAt input i j ≠ 0 → f i j = cellAt input i j) := by
  simp only [satisfies, constraints, row_constraints, column_constraints,
    diagonal_constraints, associative_row_constraints,
    associative_column_constraints, incomplete_square_constraints,
    Bool.and_eq_true, List.all_eq_true, List.mem_range, decide_eq_true_eq,
    beq_iff_eq] at h
  obtain ⟨⟨⟨⟨⟨⟨hrange, hrow⟩, hcol⟩, hdiag⟩, harow⟩, hacol⟩, hinc⟩ := h
  refine ⟨fun i hi j hj => hrange i hi j hj, hrow, hcol, ?_, ?_, harow, hacol, ?_⟩
  · exact hdiag.1
  · exact hdiag.2
  · intro i hi j hj hne
    have := hinc i hi j hj
    rw [if_pos hne] at this
    simpa using this

theorem rowSum_congr {n : ℕ} {f g : ℕ → ℕ → Int} {i : ℕ} (hi : i < n)
    (h : ∀ a < n, ∀ b < n, f a b = g a b) : rowSum n f i = rowSum n g i := by
  unfold rowSum
  exact congrArg List.sum <| List.map_congr_left fun j hj =>
    h i hi j (List.mem_range.mp hj)

theorem colSum_congr {n : ℕ} {f g : ℕ → ℕ → Int} {i : ℕ} (hi : i < n)
    (h : ∀ a < n, ∀ b < n, f a b = g a b) : colSum n f i = colSum n g i := by
  unfold colSum
  exact congrArg List.sum <| List.map_congr_left fun j hj =>
    h j (List.mem_range.mp hj) i hi

theorem magic_constant_congr {n : ℕ} {f g : ℕ → ℕ → Int}
    (h : ∀ a < n, ∀ b < n, f a b = g a b) :
    magic_constant n f = magic_constant n g := by
  rcases Nat.eq_zero_or_pos n with hn | hn
  · subst hn; rfl
  · exact rowSum_congr hn h

theorem diagSum_congr {n : ℕ} {f g : ℕ → ℕ → Int}
    (h : ∀ a < n, ∀ b < n, f a b = g a b) : diagSum n f = diagSum n g := by
  unfold diagSum
  exact congrArg List.sum <| List.map_congr_left fun i hi =>
    h i (List.mem_range.mp hi) i (List.mem_range.mp hi)

theorem antiDiagSum_congr {n : ℕ} {f g : ℕ → ℕ → Int}
    (h : ∀ a < n, ∀ b < n, f a b = g a b) : antiDiagSum n f = antiDiagSum n g := by
  unfold antiDiagSum
  refine congrArg List.sum <| List.map_congr_left fun i hi => ?_
  have hi' := List.mem_range.mp hi
  exact h (n - i - 1) (by omega) i hi'

theorem cellAt_extract_eq (n : ℕ) (f : ℕ → ℕ → Int) :
    ∀ a < n, ∀ b < n, cellAt (extractSolution n f) a b = f a b :=
  fun _ ha _ hb => cellAt_extractSolution n f ha hb

theorem extractSolution_length (n : ℕ) (f : ℕ → ℕ → Int) :
    (extractSolution n f).length = n ∧
      ∀ row ∈ extractSolution n f, row.length = n := by
  constructor
  · simp [extractSolution]
  · intro row hrow
    simp only [extractSolution, List.mem_map] at hrow
    obtain ⟨i, _, rfl⟩ := hrow
    simp

theorem returns_recorded : Returns 4 incomplete_square (some recordedSolution) :=
  returns_some_iff.mpr ⟨cellAt recordedSolution, 11, by decide, by decide⟩

/-- C1: whenever `complete_magic_square` returns a solution grid, every row
sum, every column sum, and both main-diagonal sums of that grid equal one
value: the magic constant, the sum of row 0. -/
theorem returned_grid_is_magic (n : Nat) (input sol : List (List Int))
    (h : Returns n input (some sol)) :
    (∀ i < n, rowSum n (cellAt sol) i = magic_constant n (cellAt sol)) ∧
    (∀ i < n, colSum n (cellAt sol) i = magic_constant n (cellAt sol)) ∧
    diagSum n (cellAt sol) = magic_constant n (cellAt sol) ∧
    antiDiagSum n (cellAt sol) = magic_constant n (cellAt sol) := by
  obtain ⟨f, asum, hs, rfl⟩ := returns_some_iff.mp h
  have hc := cellAt_extract_eq n f
  have hspec := satisfies_spec hs
  have hmc := magic_constant_congr hc
  refine ⟨fun i hi => ?_, fun i hi => ?_, ?_, ?_⟩
  · rw [rowSum_congr hi hc, hmc]; exact hspec.2.1 i hi
  · rw [colSum_congr hi hc, hmc]; exact hspec.2.2.1 i hi
  · rw [diagSum_congr hc, hmc]; exact hspec.2.2.2.1
  · rw [antiDiagSum_congr hc, hmc]; exact hspec.2.2.2.2.1

/-- Witness for C1 at the reference 4×4 scenario. -/
theorem returned_grid_is_magic_witness :
    Returns 4 incomplete_square (some recordedSolution) ∧
    ((∀ i < 4, rowSum 4 (cellAt recordedSolution) i =
        magic_constant 4 (cellAt recordedSolution)) ∧
     (∀ i < 4, colSum 4 (cellAt recordedSolution) i =
        magic_constant 4 (cellAt recordedSolution)) ∧
     diagSum 4 (cellAt recordedSolution) = magic_constant 4 (cellAt recordedSolution) ∧
     antiDiagSum 4 (cellAt recordedSolution) = magic_constant 4 (cellAt recordedSolution)) :=
  ⟨returns_recorded,
   returned_grid_is_magic 4 incomplete_square recordedSolution returns_recorded⟩

/-- C2: whenever `complete_magic_square` returns a solution grid, every
non-zero input cell is preserved in the output at the same position. -/
theorem given_cells_preserved (n : Nat) (input sol : List (List Int))
    (h : Returns n input (some sol)) :
    ∀ i < n, ∀ j < n, cellAt input i j ≠ 0 → cellAt sol i j = cellAt input i j := by
  obtain ⟨f, asum, hs, rfl⟩ := returns_some_iff.mp h
  intro i hi j hj hne
  rw [cellAt_extractSolution n f hi hj]
  exact (satisfies_spec hs).2.2.2.2.2.2.2 i hi j hj hne

/-- Witness for C2 at the reference 4×4 scenario. -/
theorem given_cells_preserved_witness :
    Returns 4 incomplete_square (some recordedSolution) ∧
    (∀ i < 4, ∀ j < 4, cellAt incomplete_square i j ≠ 0 →
      cellAt recordedSolution i j = cellAt incomplete_square i j) :=
  ⟨returns_recorded,
   given_cells_preserved 4 incomplete_square recordedSolution returns_recorded⟩

/-- C3: whenever `complete_magic_square` returns a solution grid, every cell
of the returned grid lies in `[1, grid_size^2]`. -/
theorem range_bound (n : Nat) (input sol : List (List Int))
    (h : Returns n input (some sol)) :
    ∀ i < n, ∀ j < n, 1 ≤ cellAt sol i j ∧ cellAt sol i j ≤ (n : Int) ^ 2 := by
  obtain ⟨f, asum, hs, rfl⟩ := returns_some_iff.mp h
  intro i hi j hj
  rw [cellAt_extractSolution n f hi hj]
  exact (satisfies_spec hs).1 i hi j hj

/-- Witness for C3 at the reference 4×4 scenario. -/
theorem range_bound_witness :
    Returns 4 incomplete_square (some recordedSolution) ∧
    (∀ i < 4, ∀ j < 4, 1 ≤ cellAt recordedSolution i j ∧
      cellAt recordedSolution i j ≤ (4 : Int) ^ 2) :=
  ⟨returns_recorded, range_bound 4 incomplete_square recordedSolution returns_recorded⟩

/-- C4: whenever `complete_magic_square` returns a solution grid, the value
`cell(0,i) + cell(grid_size-1, grid_size-1-i)` is the same constant for all
`i` in `[0, grid_size)`. -/
theorem associative_row_pairing (n : Nat) (input sol : List (List Int))
    (h : Returns n input (some sol)) :
    ∃ c, ∀ i < n, cellAt sol 0 i + cellAt sol (n - 1) (n - 1 - i) = c := by
  obtain ⟨f, asum, hs, rfl⟩ := returns_some_iff.mp h
  refine ⟨asum, fun i hi => ?_⟩
  have e1 : n - 1 - i = n - i - 1 := by omega
  rw [cellAt_extractSolution n f (by omega) hi, e1,
    cellAt_extractSolution n f (by omega) (by omega)]
  exact (satisfies_spec hs).2.2.2.2.2.1 i hi

/-- Witness for C4 at the reference 4×4 scenario. -/
theorem associative_row_pairing_witness :
    Returns 4 incomplete_square (some recordedSolution) ∧
    ∃ c, ∀ i < 4, cellAt recordedSolution 0 i +
      cellAt recordedSolution (4 - 1) (4 - 1 - i) = c :=
  ⟨returns_recorded,
   associative_row_pairing 4 incomplete_square recordedSolution returns_recorded⟩

/-- The associative-column index family exactly as claim C5 words it: the
half-open interval `[1, grid_size-2)` (this definition follows the claim's
words, for comparison with `assocColIndices`, which follows the source). -/
def specAssocColIndices (n : Nat) : List Nat := List.range' 1 (n - 2 - 1)

/-- C5 counterexample: at `grid_size = 4`, line 47 iterates Python
`range(1, 3) = [1, 2]`, not the claim's `[1, grid_size-2) = [1]`: the
equation is also asserted at index `grid_size - 2`. -/
theorem assoc_column_range_counterexample :
    assocColIndices 4 = [1, 2] ∧ specAssocColIndices 4 = [1] ∧
      assocColIndices 4 ≠ specAssocColIndices 4 := by decide

/-- C5 (amended): the associative-column equation is asserted exactly for
the indices of Python `range(1, grid_size-1)`, i.e. `1 ≤ i < grid_size-1`,
and every returned solution grid satisfies the pair-sum equation at those
indices, with the same constant as the associative-row family. -/
theorem assoc_column_range (n : Nat) (input sol : List (List Int))
    (h : Returns n input (some sol)) :
    (∀ i, i ∈ assocColIndices n ↔ 1 ≤ i ∧ i < n - 1) ∧
    ∃ c, (∀ i < n, cellAt sol 0 i + cellAt sol (n - 1) (n - 1 - i) = c) ∧
      ∀ i, 1 ≤ i → i < n - 1 →
        cellAt sol i 0 + cellAt sol (n - 1 - i) (n - 1) = c := by
  obtain ⟨f, asum, hs, rfl⟩ := returns_some_iff.mp h
  have hspec := satisfies_spec hs
  constructor
  · intro i
    unfold assocColIndices
    rw [List.mem_range'_1]
    omega
  · refine ⟨asum, fun i hi => ?_, fun i h1 h2 => ?_⟩
    · have e1 : n - 1 - i = n - i - 1 := by omega
      rw [cellAt_extractSolution n f (by omega) hi, e1,
        cellAt_extractSolution n f (by omega) (by omega)]
      exact hspec.2.2.2.2.2.1 i hi
    · have hmem : i ∈ assocColIndices n := by
        unfold assocColIndices
        rw [List.mem_range'_1]
        omega
      have e1 : n - 1 - i = n - i - 1 := by omega
      rw [cellAt_extractSolution n f (by omega) (by omega), e1,
        cellAt_extractSolution n f (by omega) (by omega)]
      exact hspec.2.2.2.2.2.2.1 i hmem

/-- Witness for the amended C5 at the reference 4×4 scenario. -/
theorem assoc_column_range_witness :
    Returns 4 incomplete_square (some recordedSolution) ∧
    ((∀ i, i ∈ assocColIndices 4 ↔ 1 ≤ i ∧ i < 4 - 1) ∧
     ∃ c, (∀ i < 4, cellAt recordedSolution 0 i +
         cellAt recordedSolution (4 - 1) (4 - 1 - i) = c) ∧
       ∀ i, 1 ≤ i → i < 4 - 1 →
         cellAt recordedSolution i 0 + cellAt recordedSolution (4 - 1 - i) (4 - 1) = c) :=
  ⟨returns_recorded,
   assoc_column_range 4 incomplete_square recordedSolution returns_recorded⟩

/-- C6: on the hard-coded 4×4 scenario the constraint store is satisfiable,
so the call does not return `none`; and any grid it returns is 4×4, has 1
at (0,2), 5 at (1,1), 6 at (3,3), and all four row sums equal to both
main-diagonal sums. -/
theorem concrete_scenario :
    ¬ Returns 4 incomplete_square none ∧
    ∀ sol, Returns 4 incomplete_square (some sol) →
      sol.length = 4 ∧ (∀ row ∈ sol, row.length = 4) ∧
      cellAt sol 0 2 = 1 ∧ cellAt sol 1 1 = 5 ∧ cellAt sol 3 3 = 6 ∧
      (∀ i < 4, rowSum 4 (cellAt sol) i = magic_constant 4 (cellAt sol)) ∧
      diagSum 4 (cellAt sol) = magic_constant 4 (cellAt sol) ∧
      antiDiagSum 4 (cellAt sol) = magic_constant 4 (cellAt sol) := by
  constructor
  · intro hnone
    rw [returns_none_iff] at hnone
    exact hnone ⟨cellAt recordedSolution, 11, by decide⟩
  · intro sol hsol
    obtain ⟨f, asum, hs, rfl⟩ := returns_some_iff.mp hsol
    have hspec := satisfies_spec hs
    obtain ⟨hlen, hrows⟩ := extractSolution_length 4 f
    have hc := cellAt_extract_eq 4 f
    refine ⟨hlen, hrows, ?_, ?_, ?_, fun i hi => ?_, ?_, ?_⟩
    · rw [cellAt_extractSolution 4 f (by omega) (by omega),
        hspec.2.2.2.2.2.2.2 0 (by omega) 2 (by omega) (by decide)]
      decide
    · rw [cellAt_extractSolution 4 f (by omega) (by omega),
        hspec.2.2.2.2.2.2.2 1 (by omega) 1 (by omega) (by decide)]
      decide
    · rw [cellAt_extractSolution 4 f (by omega) (by omega),
        hspec.2.2.2.2.2.2.2 3 (by omega) 3 (by omega) (by decide)]
      decide
    · rw [rowSum_congr hi hc, magic_constant_congr hc]
      exact hspec.2.1 i hi
    · rw [diagSum_congr hc, magic_constant_congr hc]
      exact hspec.2.2.2.1
    · rw [antiDiagSum_congr hc, magic_constant_congr hc]
      exact hspec.2.2.2.2.1

/-- Witness for C6: the transcript grid is a possible return value with the
stated properties. -/
theorem concrete_scenario_witness :
    Returns 4 incomplete_square (some recordedSolution) ∧
    (recordedSolution.length = 4 ∧ (∀ row ∈ recordedSolution, row.length = 4) ∧
     cellAt recordedSolution 0 2 = 1 ∧ cellAt recordedSolution 1 1 = 5 ∧
     cellAt recordedSolution 3 3 = 6 ∧
     (∀ i < 4, rowSum 4 (cellAt recordedSolution) i =
        magic_constant 4 (cellAt recordedSolution)) ∧
     diagSum 4 (cellAt recordedSolution) = magic_constant 4 (cellAt recordedSolution) ∧
     antiDiagSum 4 (cellAt recordedSolution) = magic_constant 4 (cellAt recordedSolution)) :=
  ⟨returns_recorded, concrete_scenario.2 recordedSolution returns_recorded⟩

/-- C8: no distinctness is asserted over the cell variables, so the
reference 4×4 scenario admits a returned solution grid with repeated
values — the source's own transcript grid, where cell (0,0) = cell (1,1). -/
theorem solution_with_repeats :
    ∃ sol, Returns 4 incomplete_square (some sol) ∧
      ∃ p q : Nat × Nat, p.1 < 4 ∧ p.2 < 4 ∧ q.1 < 4 ∧ q.2 < 4 ∧ p ≠ q ∧
        cellAt sol p.1 p.2 = cellAt sol q.1 q.2 :=
  ⟨recordedSolution, returns_recorded, (0, 0), (1, 1),
    by decide, by decide, by decide, by decide, by decide, by decide⟩

theorem rowSum_two (f : Nat → Nat → Int) (i : Nat) :
    rowSum 2 f i = f i 0 + f i 1 := by
  simp [rowSum, List.range_succ]

/-- An input whose givens force contradictory row sums: row 0 is pinned to
sum 2, but row 1 already holds 2 and its free cell must be at least 1. -/
def contradictoryInput : List (List Int) := [[1, 1], [2, 0]]

theorem contradictoryInput_unsat (f : Nat → Nat → Int) (asum : Int) :
    ¬ satisfies 2 contradictoryInput f asum = true := by
  intro hs
  have hspec := satisfies_spec hs
  have h00 : f 0 0 = 1 := by
    have e := hspec.2.2.2.2.2.2.2 0 (by omega) 0 (by omega) (by decide)
    rw [e]; decide
  have h01 : f 0 1 = 1 := by
    have e := hspec.2.2.2.2.2.2.2 0 (by omega) 1 (by omega) (by decide)
    rw [e]; decide
  have h10 : f 1 0 = 2 := by
    have e := hspec.2.2.2.2.2.2.2 1 (by omega) 0 (by omega) (by decide)
    rw [e]; decide
  have hrow1 : rowSum 2 f 1 = magic_constant 2 f := hspec.2.1 1 (by omega)
  have hrange : 1 ≤ f 1 1 := (hspec.1 1 (by omega) 1 (by omega)).1
  rw [magic_constant, rowSum_two, rowSum_two] at hrow1
  omega

/-- C7: an input whose given cells force contradictory row sums yields the
`none` outcome — the only domain-level failure the relation can signal — and
the program then prints the literal no-solution message for that size. -/
theorem unsat_input_returns_none :
    (∀ r, Returns 2 contradictoryInput r → r = none) ∧
    Returns 2 contradictoryInput none ∧
    report 2 none = ["No solution found for 2x2 Magic Square."] := by
  have hunsat : ¬ ∃ f asum, satisfies 2 contradictoryInput f asum = true := by
    rintro ⟨f, asum, hs⟩
    exact contradictoryInput_unsat f asum hs
  refine ⟨?_, returns_none_iff.mpr hunsat, rfl⟩
  intro r hr
  cases r with
  | none => rfl
  | some sol =>
    obtain ⟨f, asum, hs, _⟩ := returns_some_iff.mp hr
    exact absurd ⟨f, asum, hs⟩ hunsat

/-- Witness for C7: the `none` outcome itself satisfies the relation. -/
theorem unsat_input_returns_none_witness :
    (none : Option (List (List Int))) = none :=
  unsat_input_returns_none.1 none unsat_input_returns_none.2.1

/-- First call of the C9 scenario: forces every cell of a 2×2 square to 1. -/
def firstCallInput : List (List Int) := [[1, 0], [0, 0]]

/-- Second call of the C9 scenario: forces every cell of a 2×2 square to 2. -/
def secondCallInput : List (List Int) := [[2, 0], [0, 0]]

/-- C9: the module-level solver keeps the first call's assertions, so a
second call reports `none` although its input alone is satisfiable: each
input is solvable in a fresh solver, but after the call on `[[1,0],[0,0]]`
the call on `[[2,0],[0,0]]` must return `none`, since the shared variable
`cell_0_0` cannot equal both 1 and 2. -/
theorem solver_state_leak :
    (∃ sol, Returns 2 firstCallInput (some sol)) ∧
    (∃ sol, Returns 2 secondCallInput (some sol)) ∧
    ReturnsSeq [(2, firstCallInput)] 2 secondCallInput none ∧
    ∀ r, ReturnsSeq [(2, firstCallInput)] 2 secondCallInput r → r = none := by
  have hcomb : ¬ SatSeq ([(2, firstCallInput)] ++ [(2, secondCallInput)]) := by
    rintro ⟨f, asum, hall⟩
    have h1 := hall (2, firstCallInput) (by simp)
    have h2 := hall (2, secondCallInput) (by simp)
    have e1 : f 0 0 = 1 := by
      have e := (satisfies_spec h1).2.2.2.2.2.2.2 0 (by omega) 0 (by omega) (by decide)
      rw [e]; decide
    have e2 : f 0 0 = 2 := by
      have e := (satisfies_spec h2).2.2.2.2.2.2.2 0 (by omega) 0 (by omega) (by decide)
      rw [e]; decide
    omega
  refine ⟨?_, ?_, hcomb, ?_⟩
  · exact ⟨extractSolution 2 (fun _ _ => 1),
      returns_some_iff.mpr ⟨fun _ _ => 1, 2, by decide, rfl⟩⟩
  · exact ⟨extractSolution 2 (fun _ _ => 2),
      returns_some_iff.mpr ⟨fun _ _ => 2, 4, by decide, rfl⟩⟩
  · intro r hr
    cases r with
    | none => rfl
    | some sol =>
      obtain ⟨f, asum, hall, _⟩ := hr
      exact absurd ⟨f, asum, hall⟩ hcomb

/-- Witness for C9: the `none` outcome of the second call satisfies the
sequential relation. -/
theorem solver_state_leak_witness :
    (none : Option (List (List Int))) = none :=
  solver_state_leak.2.2.2 none solver_state_leak.2.2.1

/-- C10: for any size at least 1 and any input, the call relation yields
only `none` or an `n × n` grid (the model is read only in the sat branch),
every index used by the associative-column family stays within the grid
bounds, and for sizes 1 and 2 that family is empty. -/
theorem total_and_in_bounds (n : Nat) (input : List (List Int))
    (r : Option (List (List Int))) (hn : 1 ≤ n) (h : Returns n input r) :
    (r = none ∨ ∃ sol, r = some sol ∧ sol.length = n ∧
      ∀ row ∈ sol, row.length = n) ∧
    (∀ i ∈ assocColIndices n, 1 ≤ i ∧ i < n ∧ n - i - 1 < n ∧ n - 1 < n) ∧
    (n ≤ 2 → assocColIndices n = []) := by
  refine ⟨?_, ?_, ?_⟩
  · cases r with
    | none => exact Or.inl rfl
    | some sol =>
      obtain ⟨f, asum, _, rfl⟩ := returns_some_iff.mp h
      exact Or.inr ⟨_, rfl, (extractSolution_length n f).1,
        (extractSolution_length n f).2⟩
  · intro i hi
    unfold assocColIndices at hi
    rw [List.mem_range'_1] at hi
    omega
  · intro hn2
    have e : n - 1 - 1 = 0 := by omega
    unfold assocColIndices
    rw [e, List.range'_zero]

/-- Witness for C10 at size 1. -/
theorem total_and_in_bounds_witness :
    1 ≤ 1 ∧ Returns 1 [[0]] (some [[(1 : Int)]]) ∧
    (((some [[(1 : Int)]] : Option (List (List Int))) = none ∨
      ∃ sol, (some [[(1 : Int)]] : Option (List (List Int))) = some sol ∧
        sol.length = 1 ∧ ∀ row ∈ sol, row.length = 1) ∧
     (∀ i ∈ assocColIndices 1, 1 ≤ i ∧ i < 1 ∧ 1 - i - 1 < 1 ∧ 1 - 1 < 1) ∧
     (1 ≤ 2 → assocColIndices 1 = [])) := by
  have h : Returns 1 [[0]] (some [[(1 : Int)]]) :=
    returns_some_iff.mpr ⟨fun _ _ => 1, 2, by decide, by decide⟩
  exact ⟨by decide, h, total_and_in_bounds 1 [[0]] (some [[(1 : Int)]]) (by decide) h⟩
